import Mathlib

/-!
# Verification of the `app-event-bus` core

A shallow embedding of the repository's event bus (`src/events.ts`, the
enhanced variant implementing `StrictEventBus`), the debounce utility
(`src/utils/index.ts`) and the DOM event integration
(`src/dom-event-integration.ts`, plus the repository's secondary variant of
that file which debounces the native `change` handler).

Modelling conventions:
* JavaScript `Map` is modelled as an insertion-ordered association list
  (`Map.set` replaces an existing key's value in place, else appends;
  `Map.delete` removes the key); JavaScript `Set` as an insertion-ordered
  duplicate-free list of strings.
* A listener callback (`(data) => void | Promise<void>`) is modelled as a
  pure function `α → Except ε Unit`: `.ok ()` is a normal completion, while
  `.error err` models both a synchronous `throw` and a rejected promise.
* `Math.random`-generated listener ids are modelled as explicit arguments
  (an oracle for the random source).
* Timers are modelled with an explicit clock: `emit` takes the current time
  `now : Nat` (milliseconds) and a pending debounced dispatch is recorded as
  the pair (fire time, payload); the timer firing is the separate transition
  `fireTimer`.  `setTimeout`'s cancel-on-reschedule is the unconditional
  overwrite of the pending pair.
-/

namespace AppEventBus

/-- JS `Map.prototype.get` on an insertion-ordered association list. -/
def mapGet {β : Type} : List (String × β) → String → Option β
  | [], _ => none
  | p :: rest, k => if p.1 = k then some p.2 else mapGet rest k

/-- JS `Map.prototype.has`. -/
def mapHas {β : Type} (m : List (String × β)) (k : String) : Bool :=
  (mapGet m k).isSome

/-- JS `Map.prototype.set`: replaces the value of an existing key in place
(keeping insertion order), otherwise appends the new entry at the end. -/
def mapSet {β : Type} : List (String × β) → String → β → List (String × β)
  | [], k, v => [(k, v)]
  | p :: rest, k, v => if p.1 = k then (k, v) :: rest else p :: mapSet rest k v

/-- JS `Map.prototype.delete` (the resulting map; keys are unique by
construction, so filtering is the removal of the one entry). -/
def mapDelete {β : Type} (m : List (String × β)) (k : String) : List (String × β) :=
  m.filter (fun p => !(p.1 = k : Bool))

/-- JS `Set.prototype.has`. -/
def setHas (s : List String) (k : String) : Bool :=
  s.contains k

/-- JS `Set.prototype.add`: idempotent insert preserving insertion order. -/
def setAdd (s : List String) (k : String) : List String :=
  if setHas s k then s else s ++ [k]

/-- JS `Set.prototype.delete` (the resulting set). -/
def setDelete (s : List String) (k : String) : List String :=
  s.filter (fun e => !(e = k : Bool))

/-- The `Listener` interface of `events.ts`: `{id, callback}`. -/
structure Listener (α ε : Type) where
  id : String
  callback : α → Except ε Unit

/-- The state of one cached debounced emitter
(`debounce((data) => this.emitImmediate(event, data), debounceDelay)`):
`wait` is the delay the wrapper was created with, `pending` the currently
scheduled `setTimeout` (fire time and latest payload), if any. -/
structure DebouncedEmit (α : Type) where
  wait : Nat
  pending : Option (Nat × α)
deriving DecidableEq

/-- The mutable fields of the `EventBus` class (enhanced variant):
`listeners`, `registeredEvents`, `debouncedEmits`, `defaultDebounceConfig`. -/
structure BusState (α ε : Type) where
  listeners : List (String × List (Listener α ε))
  registeredEvents : List String
  debouncedEmits : List (String × DebouncedEmit α)
  defaultDebounceConfig : List (String × Nat)

/-- A freshly constructed bus (no default events, no options). -/
def initBus (α ε : Type) : BusState α ε :=
  { listeners := [], registeredEvents := [], debouncedEmits := [], defaultDebounceConfig := [] }

/-- `EventBus.isEventRegistered`. -/
def isEventRegistered {α ε : Type} (s : BusState α ε) (event : String) : Bool :=
  setHas s.registeredEvents event

/-- The listener bucket currently stored for an event
(`this.listeners.get(event)`, defaulting to the empty list). -/
def bucketOf {α ε : Type} (s : BusState α ε) (event : String) : List (Listener α ε) :=
  (mapGet s.listeners event).getD []

/-- `EventBus.getListenerCount`. -/
def getListenerCount {α ε : Type} (s : BusState α ε) (event : String) : Nat :=
  match mapGet s.listeners event with
  | some ls => ls.length
  | none => 0

/-- `EventBus.hasListeners`. -/
def hasListeners {α ε : Type} (s : BusState α ε) (event : String) : Bool :=
  decide (0 < getListenerCount s event)

/-- `EventBus.on` (the returned random listener id is passed in as `id`). -/
def on' {α ε : Type} (s : BusState α ε) (event : String) (id : String)
    (cb : α → Except ε Unit) : BusState α ε :=
  let m := if mapHas s.listeners event then s.listeners else mapSet s.listeners event []
  let bucket := (mapGet m event).getD []
  { s with listeners := mapSet m event (bucket ++ [{ id := id, callback := cb }]) }

/-- `EventBus.off`: filters the bucket by id; deletes the key when the
filtered bucket is empty; returns whether anything was removed. -/
def off {α ε : Type} (s : BusState α ε) (event : String) (listenerId : String) :
    BusState α ε × Bool :=
  match mapGet s.listeners event with
  | some eventListeners =>
    let filtered := eventListeners.filter (fun l => !(l.id = listenerId : Bool))
    let s' :=
      if filtered.length = 0 then
        { s with listeners := mapDelete s.listeners event }
      else
        { s with listeners := mapSet s.listeners event filtered }
    (s', decide (filtered.length < eventListeners.length))
  | none => (s, false)

/-- `EventBus.setDefaultDebounce`. -/
def setDefaultDebounce {α ε : Type} (s : BusState α ε) (event : String) (delay : Nat) :
    BusState α ε :=
  { s with defaultDebounceConfig := mapSet s.defaultDebounceConfig event delay }

/-- `EventBus.clear`: clears `listeners` and `registeredEvents` (and, as in
the source, leaves the debounce maps untouched). -/
def clear {α ε : Type} (s : BusState α ε) : BusState α ε :=
  { s with listeners := [], registeredEvents := [] }

/-- `EventBus.clearEvent`: deletes the ledger entry and the bucket, returning
`listeners.delete`'s result. -/
def clearEvent {α ε : Type} (s : BusState α ε) (event : String) : BusState α ε × Bool :=
  ({ s with registeredEvents := setDelete s.registeredEvents event,
            listeners := mapDelete s.listeners event },
   mapHas s.listeners event)

/-- One entry of the `registrations` argument of `EventBus.registerEvents`:
`{event, listener, description?, debounce?}` plus the oracle listener id that
`on` will generate for it. -/
structure Registration (α ε : Type) where
  event : String
  id : String
  listener : α → Except ε Unit
  debounceTime : Option Nat := none

/-- The loop body of `EventBus.registerEvents` for one registration entry:
adds the name to the ledger, stores a positive per-registration debounce as
the event's default delay (`debounceTime && debounceTime > 0`), then attaches
the listener via `on`. -/
def registerOne {α ε : Type} (s : BusState α ε) (r : Registration α ε) : BusState α ε :=
  let s := { s with registeredEvents := setAdd s.registeredEvents r.event }
  let s :=
    match r.debounceTime with
    | some d => if 0 < d then setDefaultDebounce s r.event d else s
    | none => s
  on' s r.event r.id r.listener

/-- `EventBus.registerEvents`: validates the whole batch first
(`validateEventRegistrations` throws on a falsy event name, i.e. the empty
string, before any entry is processed), then folds `registerOne` over the
batch. -/
def registerEvents {α ε : Type} (s : BusState α ε) (rs : List (Registration α ε)) :
    Except String (BusState α ε) :=
  if rs.all (fun r => !(r.event = "" : Bool)) then
    .ok (rs.foldl registerOne s)
  else
    .error "Invalid event registration"

/-- Outcome observed by the caller of `emit` / by the deferred dispatch:
`accepted` models a debounced call resolving without dispatching,
`ok` a dispatch in which every listener completed, `notRegistered` the
`Event "..." is not registered` error, and `failed` the rejection of
`Promise.all` with a listener's error. -/
inductive EmitOutcome (ε : Type) where
  | accepted
  | ok
  | notRegistered (event : String)
  | failed (err : ε)
deriving DecidableEq

/-- The observable result of one dispatch: the listener invocations it
performed, in order (listener id paired with the payload it received), and
the settled outcome. -/
structure EmitResult (α ε : Type) where
  invocations : List (String × α)
  outcome : EmitOutcome ε
deriving DecidableEq

/-- Whether a listener callback threw / rejected. -/
def isErr {ε : Type} : Except ε Unit → Bool
  | .error _ => true
  | .ok _ => false

/-- The error `Promise.all` rejects with: the first error among the settled
callback results (for synchronously thrown errors this is exactly the
source's first-to-reject order). -/
def firstError {ε : Type} : List (Except ε Unit) → Option ε
  | [] => none
  | .error e :: _ => some e
  | .ok _ :: rest => firstError rest

/-- `EventBus.emitImmediate`: validates registration, then — when the bucket
exists and is non-empty — invokes every callback (the `.map` over the bucket)
and awaits them all with `Promise.all`. -/
def emitImmediate {α ε : Type} (s : BusState α ε) (event : String) (data : α) :
    EmitResult α ε :=
  if isEventRegistered s event then
    match mapGet s.listeners event with
    | some eventListeners =>
      if 0 < eventListeners.length then
        { invocations := eventListeners.map (fun l => (l.id, data)),
          outcome :=
            match firstError (eventListeners.map (fun l => l.callback data)) with
            | some err => .failed err
            | none => .ok }
      else { invocations := [], outcome := .ok }
    | none => { invocations := [], outcome := .ok }
  else { invocations := [], outcome := .notRegistered event }

/-- `options?.debounce ?? this.defaultDebounceConfig.get(eventKey)`:
the per-call override takes precedence over the stored default (note `??`
does not fall through on an explicit `0`). -/
def effectiveDelay {α ε : Type} (s : BusState α ε) (opts : Option Nat) (event : String) :
    Option Nat :=
  match opts with
  | some d => some d
  | none => mapGet s.defaultDebounceConfig event

/-- `EventBus.emit`: when the effective delay is truthy and positive, the
cached debounced emitter for the event is used (created with the *current*
delay only if absent) and the call resolves as `accepted`; otherwise
`emitImmediate` runs. -/
def emit {α ε : Type} (s : BusState α ε) (now : Nat) (event : String) (data : α)
    (opts : Option Nat) : BusState α ε × EmitResult α ε :=
  match effectiveDelay s opts event with
  | some d =>
    if 0 < d then
      let entry :=
        match mapGet s.debouncedEmits event with
        | some en => en
        | none => { wait := d, pending := none }
      let entry := { entry with pending := some (now + entry.wait, data) }
      ({ s with debouncedEmits := mapSet s.debouncedEmits event entry },
       { invocations := [], outcome := .accepted })
    else (s, emitImmediate s event data)
  | none => (s, emitImmediate s event data)

/-- The debounce timer of `event` firing: dispatches the pending payload via
`emitImmediate` and clears the pending slot; a no-op when nothing is
scheduled. -/
def fireTimer {α ε : Type} (s : BusState α ε) (event : String) :
    BusState α ε × Option (EmitResult α ε) :=
  match mapGet s.debouncedEmits event with
  | some en =>
    match en.pending with
    | some p =>
      ({ s with debouncedEmits := mapSet s.debouncedEmits event { en with pending := none } },
       some (emitImmediate s event p.2))
    | none => (s, none)
  | none => (s, none)

/-- An observable delay computed from `emit`'s effect: the distance from the
call time to the fire time of the pending dispatch the call scheduled
(`none` when the call dispatched immediately). -/
def appliedDelay {α ε : Type} (s : BusState α ε) (now : Nat) (event : String) (data : α)
    (opts : Option Nat) : Option Nat :=
  match mapGet (emit s now event data opts).1.debouncedEmits event with
  | some en =>
    match en.pending with
    | some p => some (p.1 - now)
    | none => none
  | none => none

/-- One `on` call of a call sequence: the event name, the oracle listener id
and the callback. -/
structure OnCall (α ε : Type) where
  event : String
  id : String
  cb : α → Except ε Unit

/-- A sequence of `EventBus.on` calls, applied in order. -/
def onAll {α ε : Type} (s : BusState α ε) (calls : List (OnCall α ε)) : BusState α ε :=
  calls.foldl (fun s c => on' s c.event c.id c.cb) s

/-- The listeners a sequence of `on` calls attaches to `event`, in call
order. -/
def addedListeners {α ε : Type} (event : String) : List (OnCall α ε) → List (Listener α ε)
  | [] => []
  | c :: rest =>
    (if c.event = event then [{ id := c.id, callback := c.cb }] else [])
      ++ addedListeners event rest

/-- A sequence of `emit` calls for one event (call time and payload each),
with no per-call debounce override, and no timer firing in between. -/
def emitSeq {α ε : Type} (s : BusState α ε) (event : String) :
    List (Nat × α) → BusState α ε × List (EmitResult α ε)
  | [] => (s, [])
  | (t, x) :: rest =>
    let step := emit s t event x none
    let tail := emitSeq step.1 event rest
    (tail.1, step.2 :: tail.2)

/-- One public bus operation (listener ids again supplied by the oracle). -/
inductive BusOp (α ε : Type) where
  | registerEvents (rs : List (Registration α ε))
  | on' (event id : String) (cb : α → Except ε Unit)
  | off (event id : String)
  | clear
  | clearEvent (event : String)
  | setDefaultDebounce (event : String) (delay : Nat)
  | emit (now : Nat) (event : String) (data : α) (opts : Option Nat)
  | fireTimer (event : String)

/-- The state transition of one bus operation (a `registerEvents` call whose
validation throws leaves the state unchanged — validation precedes the
loop). -/
def applyOp {α ε : Type} (s : BusState α ε) : BusOp α ε → BusState α ε
  | .registerEvents rs =>
    match registerEvents s rs with
    | .ok s' => s'
    | .error _ => s
  | .on' event id cb => on' s event id cb
  | .off event id => (off s event id).1
  | .clear => clear s
  | .clearEvent event => (clearEvent s event).1
  | .setDefaultDebounce event delay => setDefaultDebounce s event delay
  | .emit now event data opts => (emit s now event data opts).1
  | .fireTimer event => (fireTimer s event).1

/-- Running a sequence of bus operations. -/
def runOps {α ε : Type} (s : BusState α ε) (ops : List (BusOp α ε)) : BusState α ε :=
  ops.foldl applyOp s

/-- The "no dangling empty buckets" check: every key present in the listener
registry map holds at least one listener. -/
def noEmptyBuckets {α ε : Type} (s : BusState α ε) : Bool :=
  s.listeners.all (fun p => !p.2.isEmpty)

/-! ## DOM event integration (`dom-event-integration.ts`) -/

/-- One attribute of a DOM element. -/
structure Attr where
  name : String
  value : String
deriving DecidableEq

/-- The slice of a DOM element the integration reads: its own attributes,
tag name (lower-cased, as CSS matching is case-insensitive on HTML tags),
`id`, current `value`, and whether `closest('[data-seller-report-form]')`
finds a container. -/
structure Elem where
  attributes : List Attr
  tagName : String
  id : String
  value : String
  inSellerReportForm : Bool
deriving DecidableEq

/-- `getAttribute`. -/
def getAttr (el : Elem) (n : String) : Option String :=
  (el.attributes.find? (fun a => a.name == n)).map (fun a => a.value)

/-- `target.dataset.action` (the `data-action` attribute). -/
def datasetAction (el : Elem) : Option String :=
  getAttr el "data-action"

/-- The JS truthiness guard `if (target.dataset.action)`: present and
non-empty. -/
def truthyAction (el : Elem) : Option String :=
  match datasetAction el with
  | some a => if a = "" then none else some a
  | none => none

/-- The global replacement of the regex `-([a-z])` by the upper-cased
captured letter, on the character list: a hyphen followed by an ASCII
lowercase letter becomes the upper-cased letter. -/
def camelizeChars : List Char → List Char
  | [] => []
  | '-' :: c :: rest =>
    if c.isLower then c.toUpper :: camelizeChars rest
    else '-' :: camelizeChars (c :: rest)
  | c :: rest => c :: camelizeChars rest

/-- Kebab-case to camelCase conversion of a data-attribute key. -/
def camelize (s : String) : String :=
  String.mk (camelizeChars s.data)

/-- `attr.name.startsWith('data-')`, computed on the character list. -/
def strStartsWith (s pre : String) : Bool :=
  pre.data.isPrefixOf s.data

/-- `id.endsWith('Select')` / the CSS suffix test `[id$="Select"]`, computed
on the character list. -/
def strEndsWith (s post : String) : Bool :=
  post.data.isSuffixOf s.data

/-- `s.slice(n)` on the character list. -/
def strDrop (s : String) (n : Nat) : String :=
  String.mk (s.data.drop n)

/-- `DOMEventIntegration.parseDataAttributes`: every own `data-*` attribute
except `data-action`, key camel-cased after dropping the `data-` prefix
(`.slice(5)`), value kept as the raw string. -/
def parseDataAttributes (el : Elem) : List (String × String) :=
  el.attributes.filterMap (fun a =>
    if strStartsWith a.name "data-" && !(a.name == "data-action") then
      some (camelize (strDrop a.name 5), a.value)
    else none)

/-- The native event as seen by a delegated handler: `event.target` and the
result of `target.closest('[data-action]')`. -/
structure NativeEvent where
  target : Option Elem
  closestAction : Option Elem
deriving DecidableEq

/-- The payload shapes the integration emits. -/
inductive DomPayload where
  | action (act : String) (element : Elem) (data : List (String × String))
      (originalEvent : NativeEvent)
  | actionError (error : String) (target : Elem) (originalEvent : NativeEvent)
  | formChange (element : Elem) (value : String) (originalEvent : NativeEvent)
  | sellerReportChange (element : Elem) (value : String) (originalEvent : NativeEvent)
deriving DecidableEq

/-- `DOMEventIntegration.handleDataAction`, parametrised by the payload
constructor so that a DOM attribute access that throws can be modelled: the
whole body is inside `try { ... } catch`, so a failure of `parse` is turned
into a single `dom:action:error` emission, and — the return type being a
plain emission list — no exception can escape to the native event loop. -/
def handleDataActionWith (parse : Elem → Except String (List (String × String)))
    (target : Elem) (ev : NativeEvent) : List (String × DomPayload) :=
  match truthyAction target with
  | none => []
  | some act =>
    match parse target with
    | .ok d => [("dom:action", .action act target d ev)]
    | .error err => [("dom:action:error", .actionError err target ev)]

/-- `handleDataAction` with the source's own (non-throwing in the model)
`parseDataAttributes`. -/
def handleDataAction (target : Elem) (ev : NativeEvent) : List (String × DomPayload) :=
  handleDataActionWith (fun t => .ok (parseDataAttributes t)) target ev

/-- `target.matches('select[id$="Select"]')`. -/
def matchesSelectIdSuffix (el : Elem) : Bool :=
  el.tagName == "select" && strEndsWith el.id "Select"

/-- The dispatch decision of one native handler path: the emissions it
produces and whether they go out immediately or through a debounce wrapper
with the given delay. -/
inductive Dispatched where
  | immediate (emissions : List (String × DomPayload))
  | debounced (delay : Nat) (emissions : List (String × DomPayload))
deriving DecidableEq

/-- Whether a dispatch path goes through a debounce wrapper. -/
def isDebouncedDispatch : Dispatched → Bool
  | .immediate _ => false
  | .debounced _ _ => true

/-- The body shared by both variants of the `change` handler: `data-action`
elements go to `handleDataAction`; otherwise a select-like element whose id
ends in `Select` emits `form:change`, an element inside a
`[data-seller-report-form]` container emits `seller-report:change`. -/
def changeHandlerBody (target : Elem) (ev : NativeEvent) : List (String × DomPayload) :=
  if (truthyAction target).isSome then
    handleDataAction target ev
  else if matchesSelectIdSuffix target then
    [("form:change", .formChange target target.value ev)]
  else if target.inSellerReportForm then
    [("seller-report:change", .sellerReportChange target target.value ev)]
  else []

/-- The `change` handler of the named source `dom-event-integration.ts`: the
body runs directly inside the delegated handler — no debounce wrapper. -/
def changeDispatchMain (target : Elem) (ev : NativeEvent) : Dispatched :=
  .immediate (changeHandlerBody target ev)

/-- The `change` handler of the repository's secondary integration variant:
the whole body is wrapped in `debounce(..., 150)` before delegation. -/
def changeDispatchVariant (target : Elem) (ev : NativeEvent) : Dispatched :=
  .debounced 150 (changeHandlerBody target ev)

/-- The `click` handler (both variants): `data-action` elements only, no
debounce. -/
def clickDispatch (target : Elem) (ev : NativeEvent) : Dispatched :=
  .immediate (if (truthyAction target).isSome then handleDataAction target ev else [])

/-- The `keydown` handler (both variants): `data-action` elements only, no
debounce. -/
def keydownDispatch (target : Elem) (ev : NativeEvent) : Dispatched :=
  .immediate (if (truthyAction target).isSome then handleDataAction target ev else [])

/-- The `submit` handler (both variants): `data-action` elements only, no
debounce. -/
def submitDispatch (target : Elem) (ev : NativeEvent) : Dispatched :=
  .immediate (if (truthyAction target).isSome then handleDataAction target ev else [])

/-- `DOMEventIntegration.createDelegatedHandler`: resolve the element the
inner handler sees (`closest('[data-action]')`, else the raw target); a
missing target does nothing. -/
def delegatedHandler (handler : Elem → NativeEvent → List (String × DomPayload))
    (ev : NativeEvent) : List (String × DomPayload) :=
  match ev.target with
  | none => []
  | some t =>
    match ev.closestAction with
    | some actionElement => handler actionElement ev
    | none => handler t ev

/-! ### Connection state machine

Native handler identity is modelled by the event type paired with a slot
number: the integration holds at most one handler per native event type
(`boundHandlers` is keyed by event type in the source), so this identifies a
handler uniquely on the document. -/

/-- The integration's state (`connected`, `boundHandlers`) together with the
root document's listener list, which only the integration touches. -/
structure DomSys where
  connected : Bool
  boundHandlers : List (String × Nat)
  docHandlers : List (String × Nat)
deriving DecidableEq

/-- `document.addEventListener`. -/
def addEventListener (doc : List (String × Nat)) (ty : String) (h : Nat) :
    List (String × Nat) :=
  doc ++ [(ty, h)]

/-- `document.removeEventListener`: removes the registration of that handler
for that event type. -/
def removeEventListener (doc : List (String × Nat)) (ty : String) (h : Nat) :
    List (String × Nat) :=
  doc.filter (fun p => !(p.1 = ty && p.2 = h : Bool))

/-- The four delegated handlers `setupDOMEventListeners` creates. -/
def stdHandlers : List (String × Nat) :=
  [("click", 0), ("change", 1), ("keydown", 2), ("submit", 3)]

/-- `DOMEventIntegration.setupDOMEventListeners`: adds the four handlers to
the document and records them in `boundHandlers`. -/
def setupDOMEventListeners (s : DomSys) : DomSys :=
  { s with
    docHandlers := stdHandlers.foldl (fun d p => addEventListener d p.1 p.2) s.docHandlers,
    boundHandlers := stdHandlers.foldl (fun b p => mapSet b p.1 p.2) s.boundHandlers }

/-- `DOMEventIntegration.connect`: early return while connected. -/
def domConnect (s : DomSys) : DomSys :=
  if s.connected then s
  else { setupDOMEventListeners s with connected := true }

/-- `DOMEventIntegration.disconnect`: early return while disconnected;
otherwise removes exactly the bound handlers and clears the map. -/
def domDisconnect (s : DomSys) : DomSys :=
  if !s.connected then s
  else
    { s with
      docHandlers := s.boundHandlers.foldl (fun d p => removeEventListener d p.1 p.2) s.docHandlers,
      boundHandlers := [],
      connected := false }

/-- A `connect`/`disconnect` call. -/
inductive DomOp where
  | connect
  | disconnect
deriving DecidableEq

/-- Applying one `connect`/`disconnect` call. -/
def applyDomOp (s : DomSys) : DomOp → DomSys
  | .connect => domConnect s
  | .disconnect => domDisconnect s

/-- A freshly constructed integration on a document with no listeners. -/
def initDomSys : DomSys :=
  { connected := false, boundHandlers := [], docHandlers := [] }

/-- Running a sequence of `connect`/`disconnect` calls. -/
def runDom (s : DomSys) (ops : List DomOp) : DomSys :=
  ops.foldl applyDomOp s

end AppEventBus

namespace AppEventBus

/-- The branch condition `debounceDelay && debounceDelay > 0` of `emit`:
whether this call goes through the debounce path. -/
def debounceActive {α ε : Type} (s : BusState α ε) (opts : Option Nat) (event : String) :
    Bool :=
  match effectiveDelay s opts event with
  | some d => decide (0 < d)
  | none => false

/-! ## Concrete fixtures (used by witnesses and counterexamples) -/

/-- A bus whose only state is a stored default debounce of 100ms for the
unregistered event `"evt"`. -/
def busW1 : BusState Nat String := setDefaultDebounce (initBus Nat String) "evt" 100

/-- Two listeners: the first throws, the second succeeds. -/
def lsW2 : List (Listener Nat String) :=
  [{ id := "a", callback := fun _ => Except.error "boom" },
   { id := "b", callback := fun _ => Except.ok () }]

/-- A bus with `"evt"` registered and the two `lsW2` listeners attached. -/
def busW2 : BusState Nat String :=
  { listeners := [("evt", lsW2)], registeredEvents := ["evt"],
    debouncedEmits := [], defaultDebounceConfig := [] }

/-- Three `on` calls, two for `"evt"` with one for another event in
between. -/
def callsW3 : List (OnCall Nat String) :=
  [{ event := "evt", id := "a", cb := fun _ => Except.ok () },
   { event := "other", id := "c", cb := fun _ => Except.ok () },
   { event := "evt", id := "b", cb := fun _ => Except.ok () }]

/-- A bus with `"evt"` and `"other"` registered and no listeners. -/
def busW3 : BusState Nat String :=
  { listeners := [], registeredEvents := ["evt", "other"],
    debouncedEmits := [], defaultDebounceConfig := [] }

/-- A bus with `"e"` registered, a 150ms default debounce for `"e"` and one
listener attached. -/
def busW4 : BusState Nat String :=
  on' { listeners := [], registeredEvents := ["e"], debouncedEmits := [],
        defaultDebounceConfig := [("e", 150)] } "e" "L1" (fun _ => Except.ok ())

/-- The bus state after a first debounced emit of `"e"` with an explicit
100ms per-call override (the cached debounced emitter now has wait 100). -/
def busW5 : BusState Nat String := (emit (initBus Nat String) 0 "e" 1 (some 100)).1

/-- A bus with a single listener (id `"a"`) attached to `"e"`. -/
def busW9 : BusState Nat String := on' (initBus Nat String) "e" "a" (fun _ => Except.ok ())

/-- An `on` call followed by the `off` call that empties the bucket. -/
def opsW9 : List (BusOp Nat String) :=
  [ BusOp.on' "e" "a" (fun _ => Except.ok ()), BusOp.off "e" "a"]

/-- A button carrying `data-action="save"` and `data-user-id="42"`. -/
def elW6 : Elem :=
  { attributes := [{ name := "data-action", value := "save" },
                   { name := "data-user-id", value := "42" }],
    tagName := "button", id := "saveBtn", value := "", inSellerReportForm := false }

/-- A native event targeting `elW6`, with `elW6` as its own closest
`[data-action]` element. -/
def evW6 : NativeEvent := { target := some elW6, closestAction := some elW6 }

/-- A payload constructor that throws, modelling a DOM attribute access
failing during `parseDataAttributes`. -/
def parseW6 : Elem → Except String (List (String × String)) :=
  fun _ => Except.error "boom"

/-- A select element with id `"citySelect"` and no `data-action`. -/
def elW7 : Elem :=
  { attributes := [], tagName := "select", id := "citySelect", value := "x",
    inSellerReportForm := false }

/-- A native change event targeting `elW7`, with no `[data-action]`
ancestor. -/
def evW7 : NativeEvent := { target := some elW7, closestAction := none }

/-! ## Helper lemmas -/

theorem mapGet_mapSet_self {β : Type} (m : List (String × β)) (k : String) (v : β) :
    mapGet (mapSet m k v) k = some v := by
  induction m with
  | nil => simp [mapGet, mapSet]
  | cons p rest ih =>
    by_cases h : p.1 = k
    · simp [mapSet, h, mapGet]
    · simp [mapSet, h, mapGet, ih]

theorem mapGet_mapSet_ne {β : Type} (m : List (String × β)) (k k' : String) (v : β)
    (h : k' ≠ k) : mapGet (mapSet m k v) k' = mapGet m k' := by
  induction m with
  | nil => simp [mapGet, mapSet, h.symm]
  | cons p rest ih =>
    by_cases hp : p.1 = k
    · simp [mapSet, mapGet, hp, h.symm]
    · simp [mapSet, mapGet, hp, ih]

theorem mapGet_eq_none_of_mapHas_false {β : Type} (m : List (String × β)) (k : String)
    (h : mapHas m k = false) : mapGet m k = none := by
  unfold mapHas at h
  cases hg : mapGet m k with
  | none => rfl
  | some v => rw [hg] at h; simp at h

theorem mapSet_of_absent {β : Type} (m : List (String × β)) (k : String) (v : β)
    (h : mapGet m k = none) : mapSet m k v = m ++ [(k, v)] := by
  induction m with
  | nil => simp [mapSet]
  | cons p rest ih =>
    by_cases hp : p.1 = k
    · rw [mapGet, if_pos hp] at h; cases h
    · rw [mapGet, if_neg hp] at h
      simp [mapSet, hp, ih h]

theorem mapSet_append_absent {β : Type} (m : List (String × β)) (k : String) (w v : β)
    (h : mapGet m k = none) : mapSet (m ++ [(k, w)]) k v = m ++ [(k, v)] := by
  induction m with
  | nil => simp [mapSet]
  | cons p rest ih =>
    by_cases hp : p.1 = k
    · rw [mapGet, if_pos hp] at h; cases h
    · rw [mapGet, if_neg hp] at h
      simp [mapSet, hp, ih h]

theorem mem_mapSet {β : Type} {m : List (String × β)} {k : String} {v : β} {p : String × β}
    (h : p ∈ mapSet m k v) : p = (k, v) ∨ p ∈ m := by
  induction m with
  | nil => simpa [mapSet] using h
  | cons q rest ih =>
    by_cases hq : q.1 = k
    · rw [mapSet, if_pos hq] at h
      rcases List.mem_cons.1 h with h' | h'
      · exact Or.inl h'
      · exact Or.inr (List.mem_cons_of_mem _ h')
    · rw [mapSet, if_neg hq] at h
      rcases List.mem_cons.1 h with h' | h'
      · exact Or.inr (h' ▸ List.mem_cons_self _ _)
      · rcases ih h' with h'' | h''
        · exact Or.inl h''
        · exact Or.inr (List.mem_cons_of_mem _ h'')

theorem mem_mapDelete {β : Type} {m : List (String × β)} {k : String} {p : String × β}
    (h : p ∈ mapDelete m k) : p ∈ m :=
  (List.mem_filter.1 h).1

theorem mapGet_mapDelete_self {β : Type} (m : List (String × β)) (k : String) :
    mapGet (mapDelete m k) k = none := by
  induction m with
  | nil => simp [mapDelete, mapGet]
  | cons p rest ih =>
    by_cases hp : p.1 = k
    · simpa [mapDelete, hp] using ih
    · simpa [mapDelete, mapGet, hp] using ih

theorem getListenerCount_eq_bucket_length {α ε : Type} (s : BusState α ε) (e : String) :
    getListenerCount s e = (bucketOf s e).length := by
  unfold getListenerCount bucketOf
  cases mapGet s.listeners e <;> simp


theorem registeredEvents_on' {α ε : Type} (s : BusState α ε) (e id : String)
    (cb : α → Except ε Unit) : (on' s e id cb).registeredEvents = s.registeredEvents := rfl

theorem cfg_on' {α ε : Type} (s : BusState α ε) (e id : String) (cb : α → Except ε Unit) :
    (on' s e id cb).defaultDebounceConfig = s.defaultDebounceConfig := rfl

theorem deb_on' {α ε : Type} (s : BusState α ε) (e id : String) (cb : α → Except ε Unit) :
    (on' s e id cb).debouncedEmits = s.debouncedEmits := rfl

theorem bucketOf_on' {α ε : Type} (s : BusState α ε) (e e' id : String)
    (cb : α → Except ε Unit) :
    bucketOf (on' s e' id cb) e =
      if e' = e then bucketOf s e ++ [{ id := id, callback := cb }] else bucketOf s e := by
  unfold on' bucketOf
  by_cases hh : mapHas s.listeners e'
  · simp only [hh, if_true]
    by_cases he : e' = e
    · subst he
      simp [mapGet_mapSet_self]
    · simp [mapGet_mapSet_ne _ _ _ _ (fun hc => he hc.symm), he]
  · simp only [hh, Bool.false_eq_true, if_false]
    have habs : mapGet s.listeners e' = none :=
      mapGet_eq_none_of_mapHas_false _ _ (by simpa using hh)
    by_cases he : e' = e
    · subst he
      simp [mapGet_mapSet_self, habs]
    · have hne : e ≠ e' := fun hc => he hc.symm
      simp [mapGet_mapSet_ne _ _ _ _ hne, he]

theorem listeners_emit {α ε : Type} (s : BusState α ε) (now : Nat) (e : String) (x : α)
    (opts : Option Nat) : (emit s now e x opts).1.listeners = s.listeners := by
  unfold emit
  cases effectiveDelay s opts e with
  | none => rfl
  | some d => by_cases hd : 0 < d <;> simp [hd]

theorem registeredEvents_emit {α ε : Type} (s : BusState α ε) (now : Nat) (e : String)
    (x : α) (opts : Option Nat) :
    (emit s now e x opts).1.registeredEvents = s.registeredEvents := by
  unfold emit
  cases effectiveDelay s opts e with
  | none => rfl
  | some d => by_cases hd : 0 < d <;> simp [hd]

theorem cfg_emit {α ε : Type} (s : BusState α ε) (now : Nat) (e : String) (x : α)
    (opts : Option Nat) :
    (emit s now e x opts).1.defaultDebounceConfig = s.defaultDebounceConfig := by
  unfold emit
  cases effectiveDelay s opts e with
  | none => rfl
  | some d => by_cases hd : 0 < d <;> simp [hd]

theorem listeners_fireTimer {α ε : Type} (s : BusState α ε) (e : String) :
    (fireTimer s e).1.listeners = s.listeners := by
  unfold fireTimer
  cases mapGet s.debouncedEmits e with
  | none => rfl
  | some en =>
    obtain ⟨w, pd⟩ := en
    cases pd <;> rfl

theorem emitImmediate_congr {α ε : Type} (s s' : BusState α ε) (e : String) (x : α)
    (h1 : s'.listeners = s.listeners) (h2 : s'.registeredEvents = s.registeredEvents) :
    emitImmediate s' e x = emitImmediate s e x := by
  simp only [emitImmediate, isEventRegistered, setHas, h1, h2]

theorem emitImmediate_invocations {α ε : Type} (s : BusState α ε) (e : String) (x : α)
    (hreg : isEventRegistered s e = true) :
    (emitImmediate s e x).invocations = (bucketOf s e).map (fun l => (l.id, x)) := by
  unfold emitImmediate bucketOf
  rw [hreg]
  cases hb : mapGet s.listeners e with
  | none => simp
  | some ls =>
    by_cases hl : 0 < ls.length
    · simp [hl]
    · have : ls = [] := List.length_eq_zero.1 (Nat.eq_zero_of_not_pos hl)
      simp [this]

theorem emitImmediate_empty_bucket {α ε : Type} (s : BusState α ε) (e : String) (x : α)
    (hreg : isEventRegistered s e = true) (hb : bucketOf s e = []) :
    emitImmediate s e x = { invocations := [], outcome := .ok } := by
  unfold emitImmediate
  rw [hreg]
  unfold bucketOf at hb
  cases hg : mapGet s.listeners e with
  | none => simp
  | some ls =>
    rw [hg] at hb
    simp only [Option.getD_some] at hb
    simp [hb]

theorem firstError_eq_none_iff {ε : Type} (l : List (Except ε Unit)) :
    firstError l = none ↔ ∀ r ∈ l, isErr r = false := by
  induction l with
  | nil => simp [firstError]
  | cons r rest ih =>
    cases r with
    | error err => simp [firstError, isErr]
    | ok u => simpa [firstError, isErr] using ih

theorem firstError_eq_some_mem {ε : Type} (l : List (Except ε Unit)) (err : ε)
    (h : firstError l = some err) : Except.error err ∈ l := by
  induction l with
  | nil => cases h
  | cons r rest ih =>
    cases r with
    | error e' =>
      rw [firstError] at h
      cases h
      exact List.mem_cons_self _ _
    | ok u =>
      rw [firstError] at h
      exact List.mem_cons_of_mem _ (ih h)


theorem bucketOf_onAll {α ε : Type} (calls : List (OnCall α ε)) (e : String) :
    ∀ s : BusState α ε,
      bucketOf (onAll s calls) e = bucketOf s e ++ addedListeners e calls := by
  induction calls with
  | nil => intro s; simp [onAll, addedListeners]
  | cons c rest ih =>
    intro s
    have hstep : onAll s (c :: rest) = onAll (on' s c.event c.id c.cb) rest := rfl
    rw [hstep, ih, bucketOf_on', addedListeners]
    by_cases hc : c.event = e <;> simp [hc]

theorem registeredEvents_onAll {α ε : Type} (calls : List (OnCall α ε)) :
    ∀ s : BusState α ε, (onAll s calls).registeredEvents = s.registeredEvents := by
  induction calls with
  | nil => intro s; rfl
  | cons c rest ih =>
    intro s
    have hstep : onAll s (c :: rest) = onAll (on' s c.event c.id c.cb) rest := rfl
    rw [hstep, ih, registeredEvents_on']

theorem mapGet_append_self {β : Type} (m : List (String × β)) (k : String) (v : β)
    (h : mapGet m k = none) : mapGet (m ++ [(k, v)]) k = some v := by
  induction m with
  | nil => simp [mapGet]
  | cons p rest ih =>
    by_cases hp : p.1 = k
    · rw [mapGet, if_pos hp] at h; cases h
    · rw [mapGet, if_neg hp] at h
      simpa [mapGet, hp] using ih h

theorem listeners_on'_wf {α ε : Type} (s : BusState α ε) (e id : String)
    (cb : α → Except ε Unit) (h : ∀ p ∈ s.listeners, p.2 ≠ []) :
    ∀ p ∈ (on' s e id cb).listeners, p.2 ≠ [] := by
  unfold on'
  by_cases hh : mapHas s.listeners e
  · simp only [hh, if_true]
    intro p hp
    rcases mem_mapSet hp with rfl | hp'
    · simp
    · exact h p hp'
  · have habs : mapGet s.listeners e = none :=
      mapGet_eq_none_of_mapHas_false _ _ (by simpa using hh)
    simp only [hh, Bool.false_eq_true, if_false]
    intro p hp
    rw [mapSet_of_absent _ _ _ habs, mapGet_append_self _ _ _ habs,
      Option.getD_some, List.nil_append, mapSet_append_absent _ _ _ _ habs] at hp
    rcases List.mem_append.1 hp with hp' | hp'
    · exact h p hp'
    · rcases List.mem_singleton.1 hp' with rfl
      simp

theorem listeners_off_wf {α ε : Type} (s : BusState α ε) (e id : String)
    (h : ∀ p ∈ s.listeners, p.2 ≠ []) :
    ∀ p ∈ ((off s e id).1).listeners, p.2 ≠ [] := by
  unfold off
  cases hg : mapGet s.listeners e with
  | none => exact h
  | some ls =>
    by_cases hl : (ls.filter (fun l => !(l.id = id : Bool))).length = 0
    · simp only [hl, if_true]
      intro p hp
      exact h p (mem_mapDelete hp)
    · simp only [hl, if_false]
      intro p hp
      rcases mem_mapSet hp with rfl | hp'
      · intro hc
        apply hl
        have hfil : ls.filter (fun l => !(l.id = id : Bool)) = [] := hc
        rw [hfil]
        rfl
      · exact h p hp'

theorem listeners_registerOne_wf {α ε : Type} (s : BusState α ε) (r : Registration α ε)
    (h : ∀ p ∈ s.listeners, p.2 ≠ []) :
    ∀ p ∈ (registerOne s r).listeners, p.2 ≠ [] := by
  unfold registerOne
  cases r.debounceTime with
  | none => exact listeners_on'_wf _ _ _ _ h
  | some d =>
    by_cases hd : 0 < d
    · simp only [hd, if_true]
      exact listeners_on'_wf _ _ _ _ h
    · simp only [hd, if_false]
      exact listeners_on'_wf _ _ _ _ h

theorem listeners_registerEvents_wf {α ε : Type} (rs : List (Registration α ε)) :
    ∀ s : BusState α ε, (∀ p ∈ s.listeners, p.2 ≠ []) →
      ∀ p ∈ (rs.foldl registerOne s).listeners, p.2 ≠ [] := by
  induction rs with
  | nil => intro s h; exact h
  | cons r rest ih =>
    intro s h
    exact ih (registerOne s r) (listeners_registerOne_wf s r h)

theorem listeners_applyOp_wf {α ε : Type} (s : BusState α ε) (op : BusOp α ε)
    (h : ∀ p ∈ s.listeners, p.2 ≠ []) :
    ∀ p ∈ (applyOp s op).listeners, p.2 ≠ [] := by
  cases op with
  | registerEvents rs =>
    unfold applyOp registerEvents
    by_cases hv : rs.all (fun r => !(r.event = "" : Bool))
    · simp only [hv, if_true]
      exact listeners_registerEvents_wf rs s h
    · simp only [hv, Bool.false_eq_true, if_false]
      exact h
  | on' e id cb => exact listeners_on'_wf _ _ _ _ h
  | off e id => exact listeners_off_wf _ _ _ h
  | clear => intro p hp; cases hp
  | clearEvent e =>
    intro p hp
    exact h p (mem_mapDelete hp)
  | setDefaultDebounce e d => exact h
  | emit now e x opts =>
    intro p hp
    have hp' : p ∈ (emit s now e x opts).1.listeners := hp
    rw [listeners_emit] at hp'
    exact h p hp'
  | fireTimer e =>
    intro p hp
    have hp' : p ∈ (fireTimer s e).1.listeners := hp
    rw [listeners_fireTimer] at hp'
    exact h p hp'

theorem listeners_runOps_wf {α ε : Type} (ops : List (BusOp α ε)) :
    ∀ s : BusState α ε, (∀ p ∈ s.listeners, p.2 ≠ []) →
      ∀ p ∈ (runOps s ops).listeners, p.2 ≠ [] := by
  induction ops with
  | nil => intro s h; exact h
  | cons op rest ih =>
    intro s h
    exact ih (applyOp s op) (listeners_applyOp_wf s op h)

theorem noEmptyBuckets_iff {α ε : Type} (s : BusState α ε) :
    noEmptyBuckets s = true ↔ ∀ p ∈ s.listeners, p.2 ≠ [] := by
  unfold noEmptyBuckets
  rw [List.all_eq_true]
  constructor
  · intro h p hp
    have := h p hp
    simpa using this
  · intro h p hp
    simpa using h p hp


theorem emit_step_debounced {α ε : Type} (s : BusState α ε) (now : Nat) (e : String)
    (x : α) (d : Nat) (hcfg : mapGet s.defaultDebounceConfig e = some d) (hd : 0 < d)
    (hw : mapGet s.debouncedEmits e = none ∨
      ∃ p, mapGet s.debouncedEmits e = some { wait := d, pending := p }) :
    emit s now e x none =
      ({ s with debouncedEmits :=
          mapSet s.debouncedEmits e { wait := d, pending := some (now + d, x) } },
       { invocations := [], outcome := .accepted }) := by
  unfold emit effectiveDelay
  rw [hcfg]
  rcases hw with hw | ⟨p, hw⟩ <;> simp [hd, hw]

theorem emitSeq_debounced_aux {α ε : Type} (e : String) (d : Nat) :
    ∀ (calls : List (Nat × α)) (t : Nat) (x : α) (s : BusState α ε),
      mapGet s.defaultDebounceConfig e = some d → 0 < d →
      (mapGet s.debouncedEmits e = none ∨
        ∃ p, mapGet s.debouncedEmits e = some { wait := d, pending := p }) →
      (∀ r ∈ (emitSeq s e ((t, x) :: calls)).2,
          r = ({ invocations := [], outcome := .accepted } : EmitResult α ε))
      ∧ (emitSeq s e ((t, x) :: calls)).1.listeners = s.listeners
      ∧ (emitSeq s e ((t, x) :: calls)).1.registeredEvents = s.registeredEvents
      ∧ mapGet (emitSeq s e ((t, x) :: calls)).1.debouncedEmits e =
          some { wait := d,
                 pending := some ((calls.getLastD (t, x)).1 + d, (calls.getLastD (t, x)).2) } := by
  intro calls
  induction calls with
  | nil =>
    intro t x s hcfg hd hw
    have hstep := emit_step_debounced s t e x d hcfg hd hw
    refine ⟨?_, ?_, ?_, ?_⟩
    · intro r hr
      simp only [emitSeq, hstep] at hr
      simpa [emitSeq] using hr
    · simp [emitSeq, hstep]
    · simp [emitSeq, hstep]
    · simp [emitSeq, hstep, mapGet_mapSet_self]
  | cons c rest ih =>
    intro t x s hcfg hd hw
    have hstep := emit_step_debounced s t e x d hcfg hd hw
    have hseq : emitSeq s e ((t, x) :: c :: rest) =
        ((emitSeq (emit s t e x none).1 e (c :: rest)).1,
         (emit s t e x none).2 :: (emitSeq (emit s t e x none).1 e (c :: rest)).2) := rfl
    set s1 := (emit s t e x none).1 with hs1
    have hcfg1 : mapGet s1.defaultDebounceConfig e = some d := by
      rw [hs1, cfg_emit, hcfg]
    have hw1 : mapGet s1.debouncedEmits e = none ∨
        ∃ p, mapGet s1.debouncedEmits e = some { wait := d, pending := p } := by
      right
      refine ⟨some (t + d, x), ?_⟩
      rw [hs1, hstep]
      exact mapGet_mapSet_self _ _ _
    obtain ⟨ihr, ihl, ihreg, ihd⟩ := ih c.1 c.2 s1 hcfg1 hd hw1
    refine ⟨?_, ?_, ?_, ?_⟩
    · intro r hr
      rw [hseq] at hr
      rcases List.mem_cons.1 hr with hr' | hr'
      · rw [hr', hstep]
      · exact ihr r hr'
    · rw [hseq]
      simp only
      rw [ihl, hs1, hstep]
    · rw [hseq]
      simp only
      rw [ihreg, hs1, hstep]
    · rw [hseq]
      simp only
      rw [List.getLastD_cons]
      exact ihd


theorem emit_of_no_delay {α ε : Type} (s : BusState α ε) (now : Nat) (e : String) (x : α)
    (opts : Option Nat) (h : effectiveDelay s opts e = none) :
    emit s now e x opts = (s, emitImmediate s e x) := by
  unfold emit
  rw [h]

theorem emit_of_zero_delay {α ε : Type} (s : BusState α ε) (now : Nat) (e : String) (x : α)
    (opts : Option Nat) (h : effectiveDelay s opts e = some 0) :
    emit s now e x opts = (s, emitImmediate s e x) := by
  unfold emit
  rw [h]
  simp

theorem emitImmediate_notRegistered {α ε : Type} (s : BusState α ε) (e : String) (x : α)
    (h : isEventRegistered s e = false) :
    emitImmediate s e x = { invocations := [], outcome := .notRegistered e } := by
  simp [emitImmediate, h]

theorem emit_step_debounced_any {α ε : Type} (s : BusState α ε) (now : Nat) (e : String)
    (x : α) (opts : Option Nat) (d : Nat)
    (hd : effectiveDelay s opts e = some d) (hpos : 0 < d) :
    ∃ w, emit s now e x opts =
      ({ s with debouncedEmits :=
          mapSet s.debouncedEmits e { wait := w, pending := some (now + w, x) } },
       { invocations := [], outcome := .accepted }) := by
  unfold emit
  rw [hd]
  cases hent : mapGet s.debouncedEmits e with
  | none => exact ⟨d, by simp [hpos]⟩
  | some en => exact ⟨en.wait, by simp [hpos]⟩

theorem appliedDelay_of_debounced {α ε : Type} (s : BusState α ε) (now : Nat) (e : String)
    (x : α) (opts : Option Nat) (d : Nat)
    (hd : effectiveDelay s opts e = some d) (hpos : 0 < d) :
    (mapGet s.debouncedEmits e = none → appliedDelay s now e x opts = some d)
    ∧ ∀ en, mapGet s.debouncedEmits e = some en →
        appliedDelay s now e x opts = some en.wait := by
  constructor
  · intro hent
    unfold appliedDelay emit
    rw [hd]
    simp [hpos, hent, mapGet_mapSet_self]
  · intro en hent
    unfold appliedDelay emit
    rw [hd]
    simp [hpos, hent, mapGet_mapSet_self]

theorem runDom_reachable (ops : List DomOp) :
    ∀ s : DomSys,
      (s = { connected := true, boundHandlers := stdHandlers, docHandlers := stdHandlers } ∨
        s = initDomSys) →
      (runDom s ops = { connected := true, boundHandlers := stdHandlers,
                        docHandlers := stdHandlers } ∨
        runDom s ops = initDomSys) := by
  induction ops with
  | nil => intro s h; exact h
  | cons op rest ih =>
    intro s h
    have hstep : runDom s (op :: rest) = runDom (applyDomOp s op) rest := rfl
    rw [hstep]
    apply ih
    rcases h with rfl | rfl <;> cases op <;>
      first
        | exact Or.inl (by decide)
        | exact Or.inr (by decide)


/-! ## Claim theorems -/

/-- Claim C1, counterexample: the claim says every `emit` of an unregistered
event fails with `NotRegistered`, including calls carrying a default debounce
delay.  On `busW1` — `"evt"` unregistered but with a stored default debounce
of 100ms — `emit` resolves as `accepted` instead of failing. -/
theorem claim_C1_counterexample :
    isEventRegistered busW1 "evt" = false
    ∧ (emit busW1 0 "evt" 7 none).2.outcome = EmitOutcome.accepted
    ∧ (emit busW1 0 "evt" 7 none).2.outcome ≠ EmitOutcome.notRegistered "evt" := by
  decide

/-- Claim C1 (amended): for an unregistered event `e`, no `emit` call invokes
any listener; a non-debounced `emit` fails with the `NotRegistered` error
naming `e`, while a debounced `emit` resolves as accepted at call time and
the deferred dispatch then fails with `NotRegistered` before invoking any
listener (that failure is not surfaced to the original caller). -/
theorem claim_C1_amended {α ε : Type} (s : BusState α ε) (now : Nat) (e : String) (x : α)
    (opts : Option Nat) (h : isEventRegistered s e = false) :
    (emit s now e x opts).2.invocations = []
    ∧ (debounceActive s opts e = false →
        (emit s now e x opts).2.outcome = .notRegistered e)
    ∧ (debounceActive s opts e = true →
        (emit s now e x opts).2.outcome = .accepted
        ∧ ∀ r, (fireTimer (emit s now e x opts).1 e).2 = some r →
            r.invocations = [] ∧ r.outcome = .notRegistered e) := by
  cases hd : effectiveDelay s opts e with
  | none =>
    have hstep := emit_of_no_delay s now e x opts hd
    have hE := emitImmediate_notRegistered s e x h
    have hdba : debounceActive s opts e = false := by simp [debounceActive, hd]
    rw [hstep, hE]
    exact ⟨rfl, fun _ => rfl, fun hc => by rw [hdba] at hc; cases hc⟩
  | some d =>
    by_cases hpos : 0 < d
    · obtain ⟨w, hstep⟩ := emit_step_debounced_any s now e x opts d hd hpos
      have hdba : debounceActive s opts e = true := by simp [debounceActive, hd, hpos]
      rw [hstep]
      refine ⟨rfl, ?_, ?_⟩
      · intro hc
        rw [hdba] at hc
        cases hc
      · intro _
        refine ⟨rfl, ?_⟩
        intro r hr
        have hget : mapGet
            (mapSet s.debouncedEmits e { wait := w, pending := some (now + w, x) }) e
            = some { wait := w, pending := some (now + w, x) } := mapGet_mapSet_self _ _ _
        simp only [fireTimer, hget] at hr
        have hr' : r = emitImmediate
            ({ s with debouncedEmits :=
                mapSet s.debouncedEmits e { wait := w, pending := some (now + w, x) } }) e x := by
          injection hr with h''
          exact h''.symm
        have hreg1 : isEventRegistered
            ({ s with debouncedEmits :=
                mapSet s.debouncedEmits e { wait := w, pending := some (now + w, x) } }) e
            = false := h
        rw [hr', emitImmediate_notRegistered _ _ _ hreg1]
        exact ⟨rfl, rfl⟩
    · have hzero : d = 0 := Nat.eq_zero_of_not_pos hpos
      subst hzero
      have hstep := emit_of_zero_delay s now e x opts hd
      have hE := emitImmediate_notRegistered s e x h
      have hdba : debounceActive s opts e = false := by simp [debounceActive, hd]
      rw [hstep, hE]
      exact ⟨rfl, fun _ => rfl, fun hc => by rw [hdba] at hc; cases hc⟩

/-- Witness for the amended claim C1, at the concrete bus `busW1`. -/
theorem claim_C1_amended_witness :
    (emit busW1 0 "evt" (7 : Nat) none).2.invocations = []
    ∧ (debounceActive busW1 none "evt" = false →
        (emit busW1 0 "evt" 7 none).2.outcome = .notRegistered "evt")
    ∧ (debounceActive busW1 none "evt" = true →
        (emit busW1 0 "evt" 7 none).2.outcome = .accepted
        ∧ ∀ r, (fireTimer (emit busW1 0 "evt" 7 none).1 "evt").2 = some r →
            r.invocations = [] ∧ r.outcome = .notRegistered "evt") :=
  claim_C1_amended busW1 0 "evt" 7 none (by decide)


/-- Claim C2: during a non-debounced dispatch of a registered event with
bucket `ls`, every listener is invoked exactly once, in bucket order, with
the emitted payload — even when some throw or reject — and the dispatch
fails if and only if at least one listener's callback failed, in which case
the surfaced error is one actually produced by a listener. -/
theorem claim_C2 {α ε : Type} (s : BusState α ε) (e : String) (x : α)
    (ls : List (Listener α ε))
    (hreg : isEventRegistered s e = true)
    (hb : mapGet s.listeners e = some ls) :
    (emitImmediate s e x).invocations = ls.map (fun l => (l.id, x))
    ∧ ((∃ err, (emitImmediate s e x).outcome = .failed err) ↔
        ∃ l ∈ ls, isErr (l.callback x) = true)
    ∧ ∀ err, (emitImmediate s e x).outcome = .failed err →
        Except.error err ∈ ls.map (fun l => l.callback x) := by
  by_cases hl : 0 < ls.length
  · have hE : emitImmediate s e x =
        { invocations := ls.map (fun l => (l.id, x)),
          outcome :=
            match firstError (ls.map (fun l => l.callback x)) with
            | some err => .failed err
            | none => .ok } := by
      unfold emitImmediate
      rw [hreg, hb]
      simp [hl]
    rw [hE]
    cases hfe : firstError (ls.map (fun l => l.callback x)) with
    | some err0 =>
      have hmem := firstError_eq_some_mem _ _ hfe
      refine ⟨rfl, ?_, ?_⟩
      · constructor
        · intro _
          rcases List.mem_map.1 hmem with ⟨l, hlmem, heq⟩
          exact ⟨l, hlmem, by rw [heq]; rfl⟩
        · intro _
          exact ⟨err0, rfl⟩
      · intro err hout
        injection hout with h'
        subst h'
        exact hmem
    | none =>
      refine ⟨rfl, ?_, ?_⟩
      · constructor
        · rintro ⟨err, hout⟩
          exact EmitOutcome.noConfusion hout
        · rintro ⟨l, hlmem, herr⟩
          have hnone := (firstError_eq_none_iff _).1 hfe (l.callback x)
            (List.mem_map_of_mem _ hlmem)
          rw [hnone] at herr
          cases herr
      · intro err hout
        exact EmitOutcome.noConfusion hout
  · have hnil : ls = [] := List.length_eq_zero.1 (Nat.eq_zero_of_not_pos hl)
    subst hnil
    have hE : emitImmediate s e x = { invocations := [], outcome := .ok } :=
      emitImmediate_empty_bucket s e x hreg (by unfold bucketOf; rw [hb]; rfl)
    rw [hE]
    refine ⟨rfl, ?_, ?_⟩
    · constructor
      · rintro ⟨err, hout⟩
        exact EmitOutcome.noConfusion hout
      · rintro ⟨l, hlmem, _⟩
        cases hlmem
    · intro err hout
      exact EmitOutcome.noConfusion hout

/-- Witness for claim C2, at the concrete bus `busW2` (listener `"a"`
throws, listener `"b"` succeeds). -/
theorem claim_C2_witness :
    (emitImmediate busW2 "evt" (5 : Nat)).invocations = lsW2.map (fun l => (l.id, 5))
    ∧ ((∃ err, (emitImmediate busW2 "evt" 5).outcome = .failed err) ↔
        ∃ l ∈ lsW2, isErr (l.callback 5) = true)
    ∧ ∀ err, (emitImmediate busW2 "evt" 5).outcome = .failed err →
        Except.error err ∈ lsW2.map (fun l => l.callback 5) :=
  claim_C2 busW2 "evt" 5 lsW2 rfl rfl

/-- Claim C3: after any sequence of `on` calls, a non-debounced dispatch of a
registered event invokes exactly the listeners attached at dispatch start, in
the order they were added (pre-existing bucket first, then the new listeners
in call order), each receiving the same payload; with an empty bucket the
dispatch succeeds without invoking anything. -/
theorem claim_C3 {α ε : Type} (s : BusState α ε) (calls : List (OnCall α ε)) (e : String)
    (x : α) (hreg : isEventRegistered (onAll s calls) e = true) :
    (emitImmediate (onAll s calls) e x).invocations =
      (bucketOf s e ++ addedListeners e calls).map (fun l => (l.id, x))
    ∧ (bucketOf (onAll s calls) e = [] →
        emitImmediate (onAll s calls) e x = { invocations := [], outcome := .ok }) := by
  constructor
  · rw [emitImmediate_invocations _ _ _ hreg, bucketOf_onAll]
  · intro hb
    exact emitImmediate_empty_bucket _ _ _ hreg hb

/-- Witness for claim C3, at the concrete bus `busW3` and call sequence
`callsW3` (two listeners added to `"evt"` around one for `"other"`). -/
theorem claim_C3_witness :
    (emitImmediate (onAll busW3 callsW3) "evt" (9 : Nat)).invocations =
      (bucketOf busW3 "evt" ++ addedListeners "evt" callsW3).map (fun l => (l.id, 9))
    ∧ (bucketOf (onAll busW3 callsW3) "evt" = [] →
        emitImmediate (onAll busW3 callsW3) "evt" 9 =
          { invocations := [], outcome := .ok }) :=
  claim_C3 busW3 callsW3 "evt" 9 rfl


/-- Claim C4: for an event with a stored positive default debounce `d` (and
no cached debounced emitter yet), a sequence of `emit` calls with no timer
firing in between produces no dispatch at all; once the timer fires there is
exactly one dispatch, invoking the listeners attached at that point once
each with the last payload, and a further timer tick dispatches nothing. -/
theorem claim_C4 {α ε : Type} (s : BusState α ε) (e : String) (d t : Nat) (x : α)
    (calls : List (Nat × α))
    (hreg : isEventRegistered s e = true)
    (hcfg : mapGet s.defaultDebounceConfig e = some d)
    (hd : 0 < d)
    (hde : mapGet s.debouncedEmits e = none) :
    (∀ r ∈ (emitSeq s e ((t, x) :: calls)).2,
        r.invocations = ([] : List (String × α)) ∧ r.outcome = .accepted)
    ∧ (fireTimer (emitSeq s e ((t, x) :: calls)).1 e).2 =
        some (emitImmediate s e (calls.getLastD (t, x)).2)
    ∧ (emitImmediate s e (calls.getLastD (t, x)).2).invocations =
        (bucketOf s e).map (fun l => (l.id, (calls.getLastD (t, x)).2))
    ∧ (fireTimer (fireTimer (emitSeq s e ((t, x) :: calls)).1 e).1 e).2 = none := by
  obtain ⟨hres, hlist, hregs, hdeb⟩ :=
    emitSeq_debounced_aux e d calls t x s hcfg hd (Or.inl hde)
  set s' := (emitSeq s e ((t, x) :: calls)).1 with hs'
  have hfire1 : fireTimer s' e =
      (BusState.mk s'.listeners s'.registeredEvents
        (mapSet s'.debouncedEmits e (DebouncedEmit.mk d none)) s'.defaultDebounceConfig,
       some (emitImmediate s' e (calls.getLastD (t, x)).2)) := by
    unfold fireTimer
    rw [hdeb]
  refine ⟨?_, ?_, ?_, ?_⟩
  · intro r hr
    rw [hres r hr]
    exact ⟨rfl, rfl⟩
  · rw [hfire1]
    exact congrArg some (emitImmediate_congr s s' e _ hlist hregs)
  · rw [emitImmediate_invocations _ _ _ hreg]
  · rw [hfire1]
    simp only [fireTimer, mapGet_mapSet_self]

/-- Witness for claim C4, at the concrete bus `busW4` (default debounce
150ms, one listener) and three rapid emits with payloads 1, 2, 3. -/
theorem claim_C4_witness :
    (∀ r ∈ (emitSeq busW4 "e" ((0, 1) :: [(5, 2), (9, 3)])).2,
        r.invocations = ([] : List (String × Nat)) ∧ r.outcome = .accepted)
    ∧ (fireTimer (emitSeq busW4 "e" ((0, 1) :: [(5, 2), (9, 3)])).1 "e").2 =
        some (emitImmediate busW4 "e" ([(5, 2), (9, 3)].getLastD (0, 1)).2)
    ∧ (emitImmediate busW4 "e" ([(5, 2), (9, 3)].getLastD (0, 1)).2).invocations =
        (bucketOf busW4 "e").map (fun l => (l.id, ([(5, 2), (9, 3)].getLastD (0, 1)).2))
    ∧ (fireTimer (fireTimer (emitSeq busW4 "e" ((0, 1) :: [(5, 2), (9, 3)])).1 "e").1 "e").2
        = none :=
  claim_C4 busW4 "e" 150 0 1 [(5, 2), (9, 3)] rfl rfl (by decide) rfl


/-- Claim C5, counterexample: the claim says the per-call override is the
delay applied to every call.  On `busW5` — after a first emit of `"e"` with
override 100 cached a debounced emitter — a second emit with override 500
is scheduled with the cached 100ms wait, not 500ms. -/
theorem claim_C5_counterexample :
    appliedDelay busW5 10 "e" 2 (some 500) = some 100
    ∧ appliedDelay busW5 10 "e" 2 (some 500) ≠ some 500 := by
  decide

/-- Claim C5 (amended): the precedence "per-call override, else stored
default, else immediate" determines the computed delay, which decides
whether the call is debounced and is the delay actually applied only while
no debounced emitter is cached for the event; once one is cached, every
later debounced call is scheduled with the cached wait regardless of the
computed delay.  A computed delay that is absent or zero dispatches
immediately. -/
theorem claim_C5_amended {α ε : Type} (s : BusState α ε) (now : Nat) (e : String) (x : α)
    (opts : Option Nat) :
    (∀ dp, opts = some dp → effectiveDelay s opts e = some dp)
    ∧ (opts = none → effectiveDelay s opts e = mapGet s.defaultDebounceConfig e)
    ∧ (∀ d, effectiveDelay s opts e = some d → 0 < d →
        (mapGet s.debouncedEmits e = none → appliedDelay s now e x opts = some d)
        ∧ ∀ en, mapGet s.debouncedEmits e = some en →
            appliedDelay s now e x opts = some en.wait)
    ∧ (effectiveDelay s opts e = none → emit s now e x opts = (s, emitImmediate s e x))
    ∧ (effectiveDelay s opts e = some 0 → emit s now e x opts = (s, emitImmediate s e x)) := by
  refine ⟨?_, ?_, ?_, ?_, ?_⟩
  · intro dp hdp
    subst hdp
    rfl
  · intro hnone
    subst hnone
    rfl
  · intro d hd hpos
    exact appliedDelay_of_debounced s now e x opts d hd hpos
  · intro hdel
    exact emit_of_no_delay s now e x opts hdel
  · intro hdel
    exact emit_of_zero_delay s now e x opts hdel

/-- Witness for the amended claim C5, at the concrete bus `busW5` (cached
wait 100) and a call with override 500: the applied delay is the cached
100ms. -/
theorem claim_C5_amended_witness :
    appliedDelay busW5 10 "e" (2 : Nat) (some 500) =
      some (DebouncedEmit.mk 100 (some (100, 1))).wait :=
  ((claim_C5_amended busW5 10 "e" 2 (some 500)).2.2.1 500 rfl (by decide)).2
    (DebouncedEmit.mk 100 (some (100, 1))) rfl

/-- Claim C6: during DOM delegation of a `data-action` element, if
constructing the action payload throws, the delegated handler emits exactly
one `dom:action:error` event carrying the error, the target element and the
original native event — and no `dom:action` event; the handler returns
normally (its result type is a plain emission list), so no exception reaches
the native event loop. -/
theorem claim_C6 (parse : Elem → Except String (List (String × String)))
    (t0 target : Elem) (ev : NativeEvent) (act err : String)
    (ht : ev.target = some t0)
    (hc : ev.closestAction = some target)
    (ha : truthyAction target = some act)
    (hp : parse target = .error err) :
    delegatedHandler (handleDataActionWith parse) ev =
      [("dom:action:error", .actionError err target ev)]
    ∧ ∀ p, ("dom:action", p) ∉ delegatedHandler (handleDataActionWith parse) ev := by
  have h1 : delegatedHandler (handleDataActionWith parse) ev =
      handleDataActionWith parse target ev := by
    unfold delegatedHandler
    rw [ht, hc]
  have h2 : handleDataActionWith parse target ev =
      [("dom:action:error", .actionError err target ev)] := by
    unfold handleDataActionWith
    rw [ha, hp]
  constructor
  · rw [h1, h2]
  · intro p hmem
    rw [h1, h2] at hmem
    simp at hmem

/-- Witness for claim C6, at the concrete button `elW6` and the throwing
payload constructor `parseW6`. -/
theorem claim_C6_witness :
    delegatedHandler (handleDataActionWith parseW6) evW6 =
      [("dom:action:error", .actionError "boom" elW6 evW6)]
    ∧ ∀ p, ("dom:action", p) ∉ delegatedHandler (handleDataActionWith parseW6) evW6 :=
  claim_C6 parseW6 elW6 elW6 evW6 "save" "boom" rfl rfl rfl rfl


/-- Claim C7, counterexample: the claim says the `form:change` path is
debounced with a fixed ~150ms delay.  In the named integration source
(`dom-event-integration.ts`), the change handler dispatches `form:change`
for the select element `elW7` immediately — no debounce wrapper exists on
that path. -/
theorem claim_C7_counterexample :
    isDebouncedDispatch (changeDispatchMain elW7 evW7) = false
    ∧ changeDispatchMain elW7 evW7 =
        .immediate [("form:change", .formChange elW7 "x" evW7)] := by
  decide

/-- Claim C7 (amended): in the named integration source the whole `change`
handler — including the `form:change` and `seller-report:change` paths —
dispatches immediately, while the repository's secondary integration
variant wraps the entire `change` dispatch (non-action paths and the action
path alike) in a single fixed 150ms debounce; the `click`, `keydown` and
`submit` handlers are never debounced in either variant. -/
theorem claim_C7_amended (target : Elem) (ev : NativeEvent) :
    changeDispatchMain target ev = .immediate (changeHandlerBody target ev)
    ∧ changeDispatchVariant target ev = .debounced 150 (changeHandlerBody target ev)
    ∧ isDebouncedDispatch (changeDispatchMain target ev) = false
    ∧ isDebouncedDispatch (changeDispatchVariant target ev) = true
    ∧ isDebouncedDispatch (clickDispatch target ev) = false
    ∧ isDebouncedDispatch (keydownDispatch target ev) = false
    ∧ isDebouncedDispatch (submitDispatch target ev) = false
    ∧ (truthyAction target = none → matchesSelectIdSuffix target = true →
        changeDispatchVariant target ev =
          .debounced 150 [("form:change", .formChange target target.value ev)]) := by
  refine ⟨rfl, rfl, rfl, rfl, rfl, rfl, rfl, ?_⟩
  intro hact hsel
  simp [changeDispatchVariant, changeHandlerBody, hact, hsel]

/-- Witness for the amended claim C7, at the select element `elW7`: the
variant integration debounces its `form:change` emission at 150ms. -/
theorem claim_C7_amended_witness :
    changeDispatchVariant elW7 evW7 =
      .debounced 150 [("form:change", .formChange elW7 elW7.value evW7)] :=
  (claim_C7_amended elW7 evW7).2.2.2.2.2.2.2 rfl rfl

/-- Claim C8: over every sequence of `connect`/`disconnect` calls on an
integration bound to a fresh document, the document holds exactly the four
delegated handlers (click, change, keydown, submit) whenever the integration
is connected and none whenever it is disconnected, and a repeated `connect`
or `disconnect` is a no-op that changes no state. -/
theorem claim_C8 (ops : List DomOp) :
    ((runDom initDomSys ops).docHandlers.map Prod.fst =
      if (runDom initDomSys ops).connected = true then
        ["click", "change", "keydown", "submit"] else [])
    ∧ ((runDom initDomSys ops).docHandlers.length =
        if (runDom initDomSys ops).connected = true then 4 else 0)
    ∧ ((runDom initDomSys ops).boundHandlers.length =
        if (runDom initDomSys ops).connected = true then 4 else 0)
    ∧ applyDomOp (applyDomOp (runDom initDomSys ops) .connect) .connect =
        applyDomOp (runDom initDomSys ops) .connect
    ∧ applyDomOp (applyDomOp (runDom initDomSys ops) .disconnect) .disconnect =
        applyDomOp (runDom initDomSys ops) .disconnect := by
  rcases runDom_reachable ops initDomSys (Or.inr rfl) with h | h <;> rw [h] <;> decide


/-- Claim C9: in every state reachable by any sequence of bus operations
from a fresh bus, every key present in the listener registry map holds at
least one listener; moreover an `off` call whose id-filter empties the
bucket removes the key itself from the map. -/
theorem claim_C9 {α ε : Type} (ops : List (BusOp α ε)) :
    noEmptyBuckets (runOps (initBus α ε) ops) = true
    ∧ ∀ (st : BusState α ε) (e id : String),
        (bucketOf st e).filter (fun l => !(l.id = id : Bool)) = [] →
        mapHas ((off st e id).1).listeners e = false := by
  constructor
  · rw [noEmptyBuckets_iff]
    apply listeners_runOps_wf
    intro p hp
    cases hp
  · intro st e id hfil
    unfold off
    cases hg : mapGet st.listeners e with
    | none =>
      simp [mapHas, hg]
    | some ls =>
      have hfil' : ls.filter (fun l => !(l.id = id : Bool)) = [] := by
        unfold bucketOf at hfil
        rw [hg] at hfil
        simpa using hfil
      simp only [hfil', List.length_nil, if_pos rfl]
      simp [mapHas, mapGet_mapDelete_self]

/-- Witness for claim C9: the op sequence `opsW9` (an `on` then the `off`
that empties the bucket) keeps the no-empty-buckets check true, and on
`busW9` that `off` call removes the `"e"` key itself. -/
theorem claim_C9_witness :
    noEmptyBuckets (runOps (initBus Nat String) opsW9) = true
    ∧ mapHas ((off busW9 "e" "a").1).listeners "e" = false := by
  have h := claim_C9 opsW9
  exact ⟨h.1, h.2 busW9 "e" "a" rfl⟩

/-- Claim C10: `on` appends one listener to the event's bucket and leaves
the registration ledger unchanged — for an event never registered (and with
no stored default debounce), `isEventRegistered` stays false after `on`,
the listener count grows by one and is positive, yet a non-debounced `emit`
still fails with the `NotRegistered` error and invokes nothing. -/
theorem claim_C10 {α ε : Type} (s : BusState α ε) (e id : String)
    (cb : α → Except ε Unit) (x : α) (now : Nat)
    (hreg : isEventRegistered s e = false)
    (hcfg : mapGet s.defaultDebounceConfig e = none) :
    isEventRegistered (on' s e id cb) e = false
    ∧ (on' s e id cb).registeredEvents = s.registeredEvents
    ∧ bucketOf (on' s e id cb) e = bucketOf s e ++ [{ id := id, callback := cb }]
    ∧ getListenerCount (on' s e id cb) e = getListenerCount s e + 1
    ∧ 0 < getListenerCount (on' s e id cb) e
    ∧ (emit (on' s e id cb) now e x none).2.outcome = .notRegistered e
    ∧ (emit (on' s e id cb) now e x none).2.invocations = [] := by
  have h1 : isEventRegistered (on' s e id cb) e = false := by
    rw [isEventRegistered, registeredEvents_on']
    exact hreg
  have h3 : bucketOf (on' s e id cb) e = bucketOf s e ++ [{ id := id, callback := cb }] := by
    have := bucketOf_on' s e e id cb
    simpa using this
  have h4 : getListenerCount (on' s e id cb) e = getListenerCount s e + 1 := by
    rw [getListenerCount_eq_bucket_length, getListenerCount_eq_bucket_length, h3]
    simp
  have hdel : effectiveDelay (on' s e id cb) none e = none := by
    unfold effectiveDelay
    rw [cfg_on']
    exact hcfg
  have hstep := emit_of_no_delay (on' s e id cb) now e x none hdel
  have hE := emitImmediate_notRegistered (on' s e id cb) e x h1
  refine ⟨h1, registeredEvents_on' s e id cb, h3, h4, ?_, ?_, ?_⟩
  · rw [h4]
    exact Nat.succ_pos _
  · rw [hstep, hE]
  · rw [hstep, hE]

/-- Witness for claim C10, at a fresh bus and the event `"e"`. -/
theorem claim_C10_witness :
    isEventRegistered (on' (initBus Nat String) "e" "a" (fun _ => Except.ok ())) "e" = false
    ∧ (on' (initBus Nat String) "e" "a" (fun _ => Except.ok ())).registeredEvents =
        (initBus Nat String).registeredEvents
    ∧ bucketOf (on' (initBus Nat String) "e" "a" (fun _ => Except.ok ())) "e" =
        bucketOf (initBus Nat String) "e" ++
          [{ id := "a", callback := fun _ => Except.ok () }]
    ∧ getListenerCount (on' (initBus Nat String) "e" "a" (fun _ => Except.ok ())) "e" =
        getListenerCount (initBus Nat String) "e" + 1
    ∧ 0 < getListenerCount (on' (initBus Nat String) "e" "a" (fun _ => Except.ok ())) "e"
    ∧ (emit (on' (initBus Nat String) "e" "a" (fun _ => Except.ok ())) 0 "e" (7 : Nat)
        none).2.outcome = .notRegistered "e"
    ∧ (emit (on' (initBus Nat String) "e" "a" (fun _ => Except.ok ())) 0 "e" (7 : Nat)
        none).2.invocations = [] :=
  claim_C10 (initBus Nat String) "e" "a" (fun _ => Except.ok ()) 7 0 rfl rfl

